import Mathlib

/-
Verification development for the Grammer-Evaluator repository
(src/main.py, src/code.py).

Strings are modelled as `List Char`.  The helper functions `pySplit`,
`pyStrip`, `pyStartsWith`, `containsSub` and `pyFloat` model the Python
string operations `str.split(sep)` (non-empty separator, non-overlapping
leftmost matches), `str.strip()` (ASCII whitespace), `str.startswith`,
the `in` substring test, and `float(str)`.  `pyFloat` covers the sign /
digits / optional fractional part portion of Python's float grammar
(exponents, `inf`, `nan` and underscores are outside the inputs that
occur in this development).

The external call `genai.GenerativeModel(model_name)` followed by
`model.generate_content(prompt)` and the `.text` accessor is modelled as
an oracle value of type `Except (List Char) (List Char)`: `Except.ok t`
is a response whose `.text` is `t`, `Except.error e` is any exception
raised by the call, carrying its message `e`.  `datetime.now()` readings
are modelled as natural-number clock values supplied to each operation.

Note on src/main.py: the module-level f-string opened on its line 50
(`prompt = f"""`) is terminated on line 68 by `""`, which is evidently
intended as the closing `"""` — with the literal two-quote reading the
string never closes and the whole module is rejected by the Python
parser (SyntaxError).  The embedding takes the prompt literal to end at
line 68, the only reading under which the module has semantics.
-/

set_option maxHeartbeats 1000000

abbrev Str := List Char

/-- Model of Python `str.startswith` on character lists. -/
def pyStartsWith : Str → Str → Bool
  | [], _ => true
  | _ :: _, [] => false
  | p :: ps, c :: cs => decide (p = c) && pyStartsWith ps cs

/-- Model of the Python substring test `sub in s`. -/
def containsSub (sub : Str) : Str → Bool
  | [] => pyStartsWith sub []
  | c :: rest => pyStartsWith sub (c :: rest) || containsSub sub rest

/-- Auxiliary worker for `pySplit`: scans the input left to right,
accumulating the current chunk in reverse in `acc`.  The `fuel`
argument makes the recursion structural; every step consumes at least
one input character, so any `fuel ≥` input length gives the same
result (`pySplitAux_fuel`) and the fallback second equation is never
reached from `pySplit`. -/
def pySplitAux (sep : Str) : Nat → Str → Str → List Str
  | _, [], acc => [acc.reverse]
  | 0, s, acc => [acc.reverse ++ s]
  | fuel + 1, c :: rest, acc =>
    if pyStartsWith sep (c :: rest) then
      acc.reverse :: pySplitAux sep fuel (rest.drop (sep.length - 1)) []
    else
      pySplitAux sep fuel rest (c :: acc)

/-- Model of Python `s.split(sep)` for a non-empty separator `sep`:
splits at the non-overlapping leftmost occurrences of `sep`. -/
def pySplit (sep s : Str) : List Str :=
  match sep with
  | [] => [s]
  | _ :: _ => pySplitAux sep s.length s []

/-- ASCII whitespace recognised by Python `str.strip()`. -/
def pyIsSpace (c : Char) : Bool :=
  decide (c = ' ') || decide (c = '\t') || decide (c = '\n') ||
  decide (c = '\x0d') || decide (c = '\x0b') || decide (c = '\x0c')

/-- Model of Python `s.strip()`: removes leading and trailing whitespace. -/
def pyStrip (s : Str) : Str :=
  ((s.dropWhile pyIsSpace).reverse.dropWhile pyIsSpace).reverse

/-- Numeric value of a digit string, as a rational. -/
def digitsVal (ds : Str) : ℚ :=
  ds.foldl (fun a c => 10 * a + ((c.toNat - 48 : ℕ) : ℚ)) 0

/-- Numeric value of the fractional digits after a decimal point. -/
def fracVal (ds : Str) : ℚ :=
  ds.foldr (fun c a => (((c.toNat - 48 : ℕ) : ℚ) + a) / 10) 0

/-- Unsigned part of Python `float(str)` parsing: digits with an
optional decimal point (`"7"`, `"7.5"`, `"7."`, `".5"`). -/
def parseUnsigned (t : Str) : Option ℚ :=
  let intPart := t.takeWhile Char.isDigit
  let rest := t.dropWhile Char.isDigit
  match rest with
  | [] => if intPart.isEmpty then none else some (digitsVal intPart)
  | c :: rest2 =>
    if c = '.' then
      let fracPart := rest2.takeWhile Char.isDigit
      let rest3 := rest2.dropWhile Char.isDigit
      if rest3.isEmpty && !(intPart.isEmpty && fracPart.isEmpty) then
        some (digitsVal intPart + fracVal fracPart)
      else none
    else none

/-- Model of Python `float(str)` on the inputs this program produces:
optional surrounding whitespace, optional sign, digits with an optional
decimal point. -/
def pyFloat (s : Str) : Option ℚ :=
  match pyStrip s with
  | [] => none
  | c :: t2 =>
    if c = '+' then parseUnsigned t2
    else if c = '-' then (parseUnsigned t2).map (fun q => -q)
    else parseUnsigned (c :: t2)

/-- One entry of `st.session_state.history` (src/main.py lines 75-80). -/
structure Record where
  timestamp : Nat
  original : Str
  feedback : Str
  model : Str
  deriving Repr, DecidableEq

/-- The session state of src/main.py (lines 40-47 initialise it; the
transient `last_feedback` / `last_text` slots are set on lines 219-220). -/
structure AppState where
  history : List Record
  selected_model : Str
  dark_mode : Bool
  feedback_level : Str
  last_feedback : Option Str
  last_text : Option Str
  deriving Repr, DecidableEq

/-- A call to the external generative service: (model identifier, prompt). -/
abbrev Call := Str × Str

/-- The `MODEL_OPTIONS` dict of src/main.py lines 34-38, as an
association list (Python dicts preserve insertion order). -/
def MODEL_OPTIONS : List (Str × Str) :=
  [("Gemini 1.5 Flash (Fast)".data, "gemini-1.5-flash".data),
   ("Gemini 1.5 Pro (Balanced)".data, "gemini-1.5-pro".data),
   ("Gemini 1.0 Pro (Legacy)".data, "gemini-pro".data)]

/-- Python dict lookup `d[k]`: `none` models the KeyError case. -/
def dictGet (d : List (Str × Str)) (k : Str) : Option Str :=
  (d.find? (fun p => decide (p.1 = k))).map (fun p => p.2)

/-- The `EVALUATION_CRITERIA` module constant of src/main.py lines 16-32
(identical in src/code.py lines 14-30). -/
def EVALUATION_CRITERIA : Str :=
  ("\nEvaluate the given text based on these 14 rules:\n1. Avoid statements referring to the past instead of the present.\n2. Avoid factual statements or those that could be interpreted as such.\n3. Avoid ambiguity and ensure clarity in meaning.\n4. Ensure relevance to the intended topic or psychological object.\n5. Avoid statements that would be universally accepted or rejected.\n6. Cover the full range of the effective scale of interest.\n7. Use simple, clear, and direct language.\n8. Keep statements short (preferably under 20 words).\n9. Each statement should express only one complete thought.\n10. Avoid universal terms such as all, always, none, and never.\n11. Use words like only, just, merely with caution.\n12. Prefer simple sentences over complex or compound ones.\n13. Avoid jargon or words that may confuse the target audience.\n14. Eliminate double negatives.\n").data

/-- The prompt f-string of src/main.py lines 50-68 (terminated at the
`""` of line 68, see the file header note), with the `{text}`,
`{EVALUATION_CRITERIA}` and `{feedback_level}` interpolations made
explicit. -/
def buildPrompt (text feedback_level : Str) : Str :=
  ("\n    You are an AI assistant skilled in grammar correction and structural refinement.\n    Analyze the following text based on the 14 rules and provide:\n    - A brief summary of errors found.\n    - A revised version of the sentence with corrections.\n    - A rating from 1-10 based on how well it follows the criteria.\n\n    **Text to Evaluate:**\n    \"").data
  ++ text
  ++ ("\"\n\n    **Evaluation Criteria:**\n    ").data
  ++ EVALUATION_CRITERIA
  ++ ("\n\n    **Response Format (").data
  ++ feedback_level
  ++ (" feedback):**\n    - Overall Rating: X/10\n    - Identified Issues: (list of issues)\n    - Suggested Improvements: (specific suggestions)\n    - Corrected Version: (revised sentence)\n    ").data

/-- src/main.py `evaluate_text` (lines 49-84).  The oracle `genResult`
stands for the outcome of `genai.GenerativeModel(model_name)` /
`model.generate_content(prompt)` / `response.text`; `now` is the
`datetime.now()` reading.  On success one record is appended to the
history (lines 74-80) and the trimmed response text is returned (line
82); on any exception the except-clause of lines 83-84 returns the
placeholder string and nothing is appended, because the append statement
sits inside the `try` after the external call.  The third component of
the result is the single external call made. -/
def evaluate_text (text model_name feedback_level : Str)
    (genResult : Except Str Str) (now : Nat) (st : AppState) :
    AppState × Str × Call :=
  let prompt := buildPrompt text feedback_level
  match genResult with
  | Except.ok responseText =>
    ({ st with history := st.history ++
        [{ timestamp := now, original := text,
           feedback := responseText, model := model_name }] },
     pyStrip responseText, (model_name, prompt))
  | Except.error e =>
    (st, ("⚠️ Error processing request: ").data ++ e, (model_name, prompt))

/-- Outcome of rendering one feedback string with `display_feedback`. -/
inductive RenderOutcome where
  | rendered (rating : Option ℚ)
  | indexError
  deriving Repr, DecidableEq

/-- src/main.py `display_feedback` (lines 86-109).  The guard on line 87
tests for the substring `"Overall Rating"` (no colon) while line 88
splits on `"Overall Rating:"` and indexes `[1]` outside the `try`; when
the split finds no separator that index raises an uncaught IndexError,
modelled by `RenderOutcome.indexError`.  A `float` failure inside the
`try` of lines 89-106 is swallowed (`except: pass`) and the feedback is
still rendered without a rating. -/
def display_feedback (feedback : Str) : RenderOutcome :=
  if containsSub ("Overall Rating").data feedback then
    match (pySplit ("Overall Rating:").data feedback).get? 1 with
    | none => RenderOutcome.indexError
    | some chunk =>
      let rating_part := pyStrip ((pySplit ['\n'] chunk).headD [])
      match pyFloat ((pySplit ['/'] rating_part).headD []) with
      | some r => RenderOutcome.rendered (some r)
      | none => RenderOutcome.rendered none
  else RenderOutcome.rendered none

/-- The colour band of src/main.py line 95:
`"red" if rating < 4 else "orange" if rating < 7 else "green"`. -/
def ratingColor (rating : ℚ) : Str :=
  if rating < 4 then ("red").data
  else if rating < 7 then ("orange").data
  else ("green").data

/-- The rating extraction of the Performance Metrics loop, src/main.py
lines 288-295: same split pipeline as `display_feedback`, but the `[1]`
index sits inside the `try`, so every failure (IndexError or ValueError)
is caught and the record is skipped. -/
def historyRating (feedback : Str) : Option ℚ :=
  if containsSub ("Overall Rating").data feedback then
    match (pySplit ("Overall Rating:").data feedback).get? 1 with
    | none => none
    | some chunk =>
      pyFloat ((pySplit ['/']
        (pyStrip ((pySplit ['\n'] chunk).headD []))).headD [])
  else none

/-- The `ratings` list accumulated by the loop of src/main.py
lines 287-295. -/
def ratingsOf (hist : List Record) : List ℚ :=
  hist.filterMap (fun r => historyRating r.feedback)

/-- The Performance Metrics of src/main.py tab3 (lines 282-311):
shown only when the history is non-empty (line 282) and some rating
parsed (line 297); the triple is (Total Evaluations = `len(history)`,
Average Rating = `sum(ratings)/len(ratings)`, Best Rating =
`max(ratings)`).  `none` models the two no-data messages. -/
def performance_metrics (hist : List Record) : Option (Nat × ℚ × ℚ) :=
  if hist.isEmpty then none
  else
    match ratingsOf hist with
    | [] => none
    | r :: rs =>
      some (hist.length,
            ((r :: rs).foldl (· + ·) 0) / ((r :: rs).length : ℚ),
            rs.foldl max r)

/-- The Clear History button of src/main.py line 168:
`st.session_state.history.clear()`. -/
def clear_history (st : AppState) : AppState := { st with history := [] }

/-- The session state right after initialisation, src/main.py
lines 40-47. -/
def initState : AppState :=
  { history := [], selected_model := ("gemini-1.5-flash").data,
    dark_mode := false, feedback_level := ("Detailed").data,
    last_feedback := none, last_text := none }

/-- A session state as produced by the sidebar (lines 145-159):
`selected_model` holds a key of `MODEL_OPTIONS`. -/
def sampleState : AppState :=
  { initState with selected_model := ("Gemini 1.5 Flash (Fast)").data }

/-- The Analyze Text button handler of src/main.py lines 211-224: a
blank (whitespace-only) input short-circuits to a warning with no
external call and no history change; otherwise `evaluate_text` is run
with the globally selected model and verbosity and its result is stored
in `last_feedback` / `last_text` (lines 219-220).  The result is
`(state, calls made, warning shown)`; `none` models the KeyError a
`MODEL_OPTIONS` lookup with an unknown key would raise. -/
def analyze_button (userText : Str) (genResult : Except Str Str)
    (now : Nat) (st : AppState) : Option (AppState × List Call × Bool) :=
  if (pyStrip userText).isEmpty then some (st, [], true)
  else
    match dictGet MODEL_OPTIONS st.selected_model with
    | none => none
    | some m =>
      let r := evaluate_text userText m st.feedback_level genResult now st
      some ({ r.1 with last_feedback := some r.2.1,
                       last_text := some userText }, [r.2.2], false)

/-- The sentence list of src/main.py line 260:
`[s.strip() for s in batch_text.split('\n') if s.strip()]`. -/
def batchSentences (batchText : Str) : List Str :=
  (pySplit ['\n'] batchText).filterMap
    (fun s => if (pyStrip s).isEmpty then none else some (pyStrip s))

/-- The body of the batch loop of src/main.py lines 264-271, one
iteration per sentence: looks up the selected model (KeyError modelled
by `none`), runs `evaluate_text` with the literal `"Concise"` verbosity,
and accumulates `(sentence, feedback)` rows and the calls made. -/
def batchLoop (oracle : Nat → Except Str Str) (clock : Nat → Nat) :
    List Str → Nat → AppState → List (Str × Str) → List Call →
    Option (AppState × List (Str × Str) × List Call)
  | [], _, st, res, cs => some (st, res, cs)
  | sent :: restS, i, st, res, cs =>
    match dictGet MODEL_OPTIONS st.selected_model with
    | none => none
    | some m =>
      let r := evaluate_text sent m ("Concise").data (oracle i) (clock i) st
      batchLoop oracle clock restS (i + 1) r.1
        (res ++ [(sent, r.2.1)]) (cs ++ [r.2.2])

/-- The Analyze All handler of src/main.py lines 258-276: a blank batch
input yields only a warning; otherwise every non-blank trimmed line is
evaluated sequentially in order.  The result is
`(state, result rows, calls made, warning shown)`. -/
def batch_analyze (batchText : Str) (oracle : Nat → Except Str Str)
    (clock : Nat → Nat) (st : AppState) :
    Option (AppState × List (Str × Str) × List Call × Bool) :=
  if (pyStrip batchText).isEmpty then some (st, [], [], true)
  else
    (batchLoop oracle clock (batchSentences batchText) 0 st [] []).map
      (fun r => (r.1, r.2.1, r.2.2, false))

/-- The feedback string `evaluate_text` returns for a given oracle
outcome (it depends only on that outcome). -/
def feedbackOf : Except Str Str → Str
  | Except.ok r => pyStrip r
  | Except.error e => ("⚠️ Error processing request: ").data ++ e

/-- The records the batch loop appends for sentence list `l` starting at
iteration index `i`: one per successful oracle outcome, in order. -/
def batchRecs (m : Str) (oracle : Nat → Except Str Str)
    (clock : Nat → Nat) : List Str → Nat → List Record
  | [], _ => []
  | s :: rest, i =>
    (match oracle i with
     | Except.ok r =>
       [{ timestamp := clock i, original := s, feedback := r, model := m }]
     | Except.error _ => []) ++ batchRecs m oracle clock rest (i + 1)

/-- The `(sentence, feedback)` rows the batch loop accumulates. -/
def batchResults (oracle : Nat → Except Str Str) :
    List Str → Nat → List (Str × Str)
  | [], _ => []
  | s :: rest, i => (s, feedbackOf (oracle i)) :: batchResults oracle rest (i + 1)

/-- The external calls the batch loop makes: one per sentence, each with
the `"Concise"` verbosity baked into the prompt. -/
def batchCalls (m : Str) : List Str → List Call
  | [] => []
  | s :: rest => (m, buildPrompt s ("Concise").data) :: batchCalls m rest

/-- The prompt f-string of src/code.py lines 35-50. -/
def code_buildPrompt (text : Str) : Str :=
  ("\n    You are an AI assistant skilled in grammar correction and structural refinement.\n    Analyze the following text based on the 14 rules and provide:\n    - A brief summary of errors found.\n    - A revised version of the sentence with corrections.\n\n    **Text to Evaluate:**\n    \"").data
  ++ text
  ++ ("\"\n\n    **Evaluation Criteria:**\n    ").data
  ++ EVALUATION_CRITERIA
  ++ ("\n\n    **Expected Response:**\n    - Identified issues (if any).\n    - Corrected sentence.\n    ").data

/-- src/code.py `evaluate_text` (lines 34-58): stateless variant, fixed
model `"gemini-1.5-flash"`, same catch-and-return error contract. -/
def code_evaluate_text (text : Str) (genResult : Except Str Str) :
    Str × Call :=
  ((match genResult with
    | Except.ok r => pyStrip r
    | Except.error e => ("⚠️ Error processing request: ").data ++ e),
   (("gemini-1.5-flash").data, code_buildPrompt text))

/-- Every user action of src/main.py that can touch the session state:
the two evaluation handlers, the Clear History button, and the read-only
renders (tab1 results panel, tab3 history and metrics). -/
inductive UserAction where
  | analyze (userText : Str) (genResult : Except Str Str) (now : Nat)
  | batch (batchText : Str) (oracle : Nat → Except Str Str) (clock : Nat → Nat)
  | clearHist
  | render

/-- The state transition each action performs (`none` = the handler
raised a KeyError on an unknown model key). -/
def step : UserAction → AppState → Option AppState
  | UserAction.analyze t g now, st => (analyze_button t g now st).map (fun r => r.1)
  | UserAction.batch t o c, st => (batch_analyze t o c st).map (fun r => r.1)
  | UserAction.clearHist, st => some (clear_history st)
  | UserAction.render, st => some st

/-! Helper lemmas about the Python string-operation models. -/

theorem pyStartsWith_iffEx : ∀ (p s : Str), pyStartsWith p s = true ↔ ∃ t, s = p ++ t
  | [], s => by simp [pyStartsWith]
  | p :: ps, [] => by simp [pyStartsWith]
  | p :: ps, c :: cs => by
    simp only [pyStartsWith, Bool.and_eq_true, decide_eq_true_eq,
      pyStartsWith_iffEx ps cs, List.cons_append]
    constructor
    · rintro ⟨rfl, t, rfl⟩; exact ⟨t, rfl⟩
    · rintro ⟨t, ht⟩
      injection ht with h1 h2
      exact ⟨h1.symm, t, h2⟩

theorem pyStartsWith_append (p t : Str) : pyStartsWith p (p ++ t) = true :=
  (pyStartsWith_iffEx _ _).2 ⟨t, rfl⟩

theorem containsSub_nil_left : ∀ (s : Str), containsSub [] s = true
  | [] => rfl
  | _ :: rest => by simp [containsSub, pyStartsWith, containsSub_nil_left rest]

theorem containsSub_of_mid : ∀ (pre a suf : Str), containsSub a (pre ++ a ++ suf) = true
  | [], a, suf => by
    cases a with
    | nil => simpa using containsSub_nil_left suf
    | cons a0 as =>
      show (pyStartsWith (a0 :: as) ((a0 :: as) ++ suf)
        || containsSub (a0 :: as) (as ++ suf)) = true
      rw [pyStartsWith_append]
      simp
  | c :: pre', a, suf => by
    show (pyStartsWith a (c :: (pre' ++ a ++ suf))
      || containsSub a (pre' ++ a ++ suf)) = true
    rw [containsSub_of_mid pre' a suf]
    simp

theorem containsSub_singleton (c : Char) : ∀ (l : Str), containsSub [c] l = true ↔ c ∈ l
  | [] => by
    show false = true ↔ c ∈ ([] : Str)
    simp
  | d :: rest => by
    show (pyStartsWith [c] (d :: rest) || containsSub [c] rest) = true ↔ c ∈ d :: rest
    have hsw : pyStartsWith [c] (d :: rest) = decide (c = d) := by
      show (decide (c = d) && true) = decide (c = d)
      simp
    rw [hsw]
    simp [containsSub_singleton c rest, List.mem_cons]

theorem containsSub_singleton_false {c : Char} {l : Str} (h : c ∉ l) :
    containsSub [c] l = false := by
  cases hb : containsSub [c] l with
  | false => rfl
  | true => exact absurd ((containsSub_singleton c l).1 hb) h

theorem containsSub_cons_false {sub : Str} {c : Char} {rest : Str}
    (h : containsSub sub (c :: rest) = false) :
    pyStartsWith sub (c :: rest) = false ∧ containsSub sub rest = false := by
  simpa [containsSub] using h

theorem pySplitAux_fuel (sep : Str) :
    ∀ (f1 : Nat) (f2 : Nat) (s acc : Str), s.length ≤ f1 → s.length ≤ f2 →
    pySplitAux sep f1 s acc = pySplitAux sep f2 s acc := by
  intro f1
  induction f1 with
  | zero =>
    intro f2 s acc h1 _
    have hs : s = [] := List.eq_nil_of_length_eq_zero (Nat.le_zero.mp h1)
    subst hs
    cases f2 <;> simp [pySplitAux]
  | succ a ih =>
    intro f2 s acc h1 h2
    cases s with
    | nil => cases f2 <;> simp [pySplitAux]
    | cons c rest =>
      cases f2 with
      | zero => simp at h2
      | succ b =>
        simp only [pySplitAux]
        by_cases hp : pyStartsWith sep (c :: rest) = true
        · rw [if_pos hp, if_pos hp]
          have hd : (rest.drop (sep.length - 1)).length ≤ a := by
            simp only [List.length_drop]
            simp only [List.length_cons] at h1
            omega
          have hd2 : (rest.drop (sep.length - 1)).length ≤ b := by
            simp only [List.length_drop]
            simp only [List.length_cons] at h2
            omega
          rw [ih b _ [] hd hd2]
        · rw [if_neg hp, if_neg hp]
          have hr : rest.length ≤ a := by
            simp only [List.length_cons] at h1; omega
          have hr2 : rest.length ≤ b := by
            simp only [List.length_cons] at h2; omega
          rw [ih b rest (c :: acc) hr hr2]

theorem pySplitAux_no_occ (sep : Str) :
    ∀ (fuel : Nat) (s acc : Str), s.length ≤ fuel → containsSub sep s = false →
    pySplitAux sep fuel s acc = [acc.reverse ++ s] := by
  intro fuel
  induction fuel with
  | zero =>
    intro s acc h1 _
    have hs : s = [] := List.eq_nil_of_length_eq_zero (Nat.le_zero.mp h1)
    subst hs
    simp [pySplitAux]
  | succ a ih =>
    intro s acc h1 h
    cases s with
    | nil => simp [pySplitAux]
    | cons c rest =>
      obtain ⟨hp, hrest⟩ := containsSub_cons_false h
      simp only [pySplitAux]
      rw [if_neg (by simp [hp])]
      have hr : rest.length ≤ a := by simp only [List.length_cons] at h1; omega
      rw [ih rest (c :: acc) hr hrest]
      simp

theorem pySplit_no_occ {sep : Str} (s : Str) (hsep : sep ≠ [])
    (h : containsSub sep s = false) : pySplit sep s = [s] := by
  cases sep with
  | nil => exact absurd rfl hsep
  | cons s0 st =>
    show pySplitAux (s0 :: st) s.length s [] = [s]
    rw [pySplitAux_no_occ (s0 :: st) s.length s [] (le_refl _) h]
    simp

theorem pySplitAux_append (sep : Str) (hsep : sep ≠ []) :
    ∀ (pre : Str) (fuel : Nat) (suf acc : Str),
    (pre ++ sep ++ suf).length ≤ fuel →
    containsSub sep (pre ++ sep.dropLast) = false →
    pySplitAux sep fuel (pre ++ sep ++ suf) acc
      = (acc.reverse ++ pre) :: pySplit sep suf := by
  intro pre
  induction pre with
  | nil =>
    intro fuel suf acc hf _
    cases sep with
    | nil => exact absurd rfl hsep
    | cons s0 st =>
      cases fuel with
      | zero => simp at hf
      | succ a =>
        show pySplitAux (s0 :: st) (a + 1) (s0 :: (st ++ suf)) acc
          = (acc.reverse ++ []) :: pySplit (s0 :: st) suf
        have hp : pyStartsWith (s0 :: st) (s0 :: (st ++ suf)) = true :=
          pyStartsWith_append (s0 :: st) suf
        simp only [pySplitAux, hp, if_true]
        have hdrop : (st ++ suf).drop ((s0 :: st).length - 1) = suf := by
          simp only [List.length_cons, Nat.add_sub_cancel]
          exact List.drop_left st suf
        rw [hdrop]
        have hlen : suf.length ≤ a := by
          simp only [List.nil_append, List.length_append, List.length_cons] at hf
          omega
        rw [pySplitAux_fuel (s0 :: st) a suf.length suf [] hlen (le_refl _)]
        simp [pySplit]
  | cons c pre' ih =>
    intro fuel suf acc hf h
    cases fuel with
    | zero => simp at hf
    | succ b =>
      have hQ : containsSub sep (c :: (pre' ++ sep.dropLast)) = false := by
        simpa using h
      obtain ⟨hp0, hrest⟩ := containsSub_cons_false hQ
      have hp : pyStartsWith sep (c :: (pre' ++ sep ++ suf)) = false := by
        by_contra hcontra
        have hptrue : pyStartsWith sep (c :: (pre' ++ sep ++ suf)) = true := by
          cases hx : pyStartsWith sep (c :: (pre' ++ sep ++ suf)) with
          | true => rfl
          | false => exact absurd hx hcontra
        obtain ⟨t, ht⟩ := (pyStartsWith_iffEx _ _).1 hptrue
        have hdecomp : c :: (pre' ++ sep ++ suf)
            = (c :: (pre' ++ sep.dropLast)) ++ ([sep.getLast hsep] ++ suf) := by
          have hsepeq : sep.dropLast ++ [sep.getLast hsep] = sep :=
            List.dropLast_concat_getLast hsep
          calc c :: (pre' ++ sep ++ suf)
              = c :: (pre' ++ (sep.dropLast ++ [sep.getLast hsep]) ++ suf) := by
                rw [hsepeq]
            _ = (c :: (pre' ++ sep.dropLast)) ++ ([sep.getLast hsep] ++ suf) := by
                simp [List.append_assoc]
        have hlenle : sep.length ≤ (c :: (pre' ++ sep.dropLast)).length := by
          have h1 : 0 < sep.length := List.length_pos.mpr hsep
          simp only [List.length_cons, List.length_append, List.length_dropLast]
          omega
        have htake1 : (sep ++ t).take sep.length = sep := List.take_left sep t
        have htake2 : ((c :: (pre' ++ sep.dropLast)) ++ ([sep.getLast hsep] ++ suf)).take sep.length
            = (c :: (pre' ++ sep.dropLast)).take sep.length :=
          List.take_append_of_le_length hlenle
        have heq : sep ++ t
            = (c :: (pre' ++ sep.dropLast)) ++ ([sep.getLast hsep] ++ suf) := by
          rw [← ht]; exact hdecomp
        have hsepQ : sep = (c :: (pre' ++ sep.dropLast)).take sep.length := by
          have hcong := congrArg (List.take sep.length) heq
          rw [htake1, htake2] at hcong
          exact hcong
        have hQdecomp : c :: (pre' ++ sep.dropLast)
            = sep ++ (c :: (pre' ++ sep.dropLast)).drop sep.length := by
          conv_lhs => rw [← List.take_append_drop sep.length (c :: (pre' ++ sep.dropLast))]
          rw [← hsepQ]
        have : pyStartsWith sep (c :: (pre' ++ sep.dropLast)) = true :=
          (pyStartsWith_iffEx _ _).2 ⟨_, hQdecomp⟩
        rw [this] at hp0
        exact absurd hp0 (by simp)
      show pySplitAux sep (b + 1) (c :: (pre' ++ sep ++ suf)) acc
        = (acc.reverse ++ (c :: pre')) :: pySplit sep suf
      simp only [pySplitAux, hp, Bool.false_eq_true, if_false]
      have hlen : (pre' ++ sep ++ suf).length ≤ b := by
        simp only [List.cons_append, List.length_cons] at hf
        simp only [List.length_append] at hf ⊢
        omega
      rw [ih b suf (c :: acc) hlen hrest]
      simp

theorem pySplit_append (sep pre suf : Str) (hsep : sep ≠ [])
    (h : containsSub sep (pre ++ sep.dropLast) = false) :
    pySplit sep (pre ++ sep ++ suf) = pre :: pySplit sep suf := by
  cases sep with
  | nil => exact absurd rfl hsep
  | cons s0 st =>
    show pySplitAux (s0 :: st) (pre ++ (s0 :: st) ++ suf).length
      (pre ++ (s0 :: st) ++ suf) [] = pre :: pySplit (s0 :: st) suf
    rw [pySplitAux_append (s0 :: st) hsep pre _ suf [] (le_refl _) h]
    simp

theorem digit_not_space {c : Char} (h : c.isDigit = true) : pyIsSpace c = false := by
  cases hs : pyIsSpace c with
  | false => rfl
  | true =>
    have : ((((c = ' ' ∨ c = '\t') ∨ c = '\n') ∨ c = '\x0d') ∨ c = '\x0b') ∨ c = '\x0c' := by
      simpa [pyIsSpace] using hs
    rcases this with ((((rfl | rfl) | rfl) | rfl) | rfl) | rfl <;> simp [Char.isDigit] at h

theorem dropWhile_eq_self_of_no_sat {p : Char → Bool} {l : Str}
    (h : ∀ c ∈ l, p c = false) : l.dropWhile p = l := by
  cases l with
  | nil => rfl
  | cons c rest =>
    rw [List.dropWhile_cons]
    rw [h c (List.mem_cons_self c rest)]
    simp

theorem pyStrip_eq_self_of_no_space {l : Str}
    (h : ∀ c ∈ l, pyIsSpace c = false) : pyStrip l = l := by
  unfold pyStrip
  rw [dropWhile_eq_self_of_no_sat h]
  rw [dropWhile_eq_self_of_no_sat (by intro c hc; exact h c (List.mem_reverse.mp hc))]
  exact List.reverse_reverse l

theorem pyStrip_append_slash (ws ds r1 : Str)
    (hws : ∀ c ∈ ws, pyIsSpace c = true)
    (hds : ds ≠ []) (hdig : ∀ c ∈ ds, c.isDigit = true) :
    pyStrip (ws ++ ds ++ '/' :: r1)
      = ds ++ '/' :: (r1.reverse.dropWhile pyIsSpace).reverse := by
  have hns : ∀ c ∈ ds, pyIsSpace c = false := fun c hc => digit_not_space (hdig c hc)
  have h1 : (ds ++ '/' :: r1).dropWhile pyIsSpace = ds ++ '/' :: r1 := by
    rw [List.dropWhile_append]
    rw [dropWhile_eq_self_of_no_sat hns]
    cases ds with
    | nil => exact absurd rfl hds
    | cons c rest => simp
  unfold pyStrip
  have h0 : (ws ++ ds ++ '/' :: r1).dropWhile pyIsSpace = ds ++ '/' :: r1 := by
    rw [List.append_assoc, List.dropWhile_append]
    rw [List.dropWhile_eq_nil_iff.mpr hws]
    simpa using h1
  rw [h0]
  have h2 : (ds ++ '/' :: r1).reverse = r1.reverse ++ '/' :: ds.reverse := by
    simp
  rw [h2]
  have h3 : (r1.reverse ++ '/' :: ds.reverse).dropWhile pyIsSpace
      = r1.reverse.dropWhile pyIsSpace ++ '/' :: ds.reverse := by
    rw [List.dropWhile_append]
    by_cases he : (r1.reverse.dropWhile pyIsSpace).isEmpty = true
    · rw [if_pos he]
      rw [List.isEmpty_iff] at he
      rw [he, List.nil_append, List.dropWhile_cons]
      have : pyIsSpace '/' = false := by decide
      rw [this]
      simp
    · rw [if_neg he]
  rw [h3]
  simp

theorem takeWhile_eq_self_of_sat {p : Char → Bool} {l : Str}
    (h : ∀ c ∈ l, p c = true) : l.takeWhile p = l :=
  List.takeWhile_eq_self_iff.mpr h

theorem parseUnsigned_all_digits (t : Str) (ht : t ≠ [])
    (hd : ∀ c ∈ t, c.isDigit = true) :
    parseUnsigned t = some (digitsVal t) := by
  have hTW : t.takeWhile Char.isDigit = t := takeWhile_eq_self_of_sat hd
  have hDW : t.dropWhile Char.isDigit = [] := List.dropWhile_eq_nil_iff.mpr hd
  unfold parseUnsigned
  simp only [hTW, hDW]
  cases t with
  | nil => exact absurd rfl ht
  | cons c t2 => simp

theorem pyFloat_digits (tok : Str) (htok : tok ≠ [])
    (hdig : ∀ c ∈ tok, c.isDigit = true) :
    pyFloat tok = some (digitsVal tok) := by
  have hstrip : pyStrip tok = tok :=
    pyStrip_eq_self_of_no_space (fun c hc => digit_not_space (hdig c hc))
  cases htk : tok with
  | nil => exact absurd htk htok
  | cons c t2 =>
    have hcd : c.isDigit = true := hdig c (htk ▸ List.mem_cons_self c t2)
    have hplus : ¬ c = '+' := by
      intro hcc; rw [hcc] at hcd; simp [Char.isDigit] at hcd
    have hminus : ¬ c = '-' := by
      intro hcc; rw [hcc] at hcd; simp [Char.isDigit] at hcd
    have hstrip2 : pyStrip (c :: t2) = c :: t2 := htk ▸ hstrip
    unfold pyFloat
    rw [hstrip2]
    show (if c = '+' then parseUnsigned t2
      else if c = '-' then (parseUnsigned t2).map (fun q => -q)
      else parseUnsigned (c :: t2)) = some (digitsVal (c :: t2))
    rw [if_neg hplus, if_neg hminus]
    exact parseUnsigned_all_digits (c :: t2) (by simp) (htk ▸ hdig)

theorem line_of_split (tok rest : Str)
    (hnl : '\n' ∉ tok) :
    (pySplit ['\n'] (tok ++ '/' :: rest)).headD []
      = tok ++ '/' :: rest.takeWhile (fun c => !(decide (c = '\n'))) := by
  set p : Char → Bool := fun c => !(decide (c = '\n')) with hp
  set r1 := rest.takeWhile p with hr1
  set r2 := rest.dropWhile p with hr2
  have hrest : rest = r1 ++ r2 := (List.takeWhile_append_dropWhile p rest).symm
  have hnotin : '\n' ∉ tok ++ '/' :: r1 := by
    intro hmem
    rcases List.mem_append.mp hmem with hmem1 | hmem2
    · exact hnl hmem1
    · rcases List.mem_cons.mp hmem2 with hc | hmem3
      · exact absurd hc (by decide)
      · have := List.mem_takeWhile_imp hmem3
        simp [hp] at this
  have hC : containsSub ['\n'] (tok ++ '/' :: r1) = false :=
    containsSub_singleton_false hnotin
  cases hr2c : r2 with
  | nil =>
    have : rest = r1 := by rw [hrest, hr2c, List.append_nil]
    rw [this]
    rw [pySplit_no_occ (tok ++ '/' :: r1) (by simp) hC]
    rfl
  | cons c2 r2' =>
    have hc2 : c2 = '\n' := by
      have hdw : rest.dropWhile p = c2 :: r2' := by rw [← hr2]; exact hr2c
      have hne : rest.dropWhile p ≠ [] := by rw [hdw]; simp
      have hhead := List.head_dropWhile_not p rest hne
      have hheadc : (rest.dropWhile p).head hne = c2 := by simp [hdw]
      rw [hheadc] at hhead
      simpa [hp] using hhead
    have hdecomp : tok ++ '/' :: rest = (tok ++ '/' :: r1) ++ ['\n'] ++ r2' := by
      rw [hrest, hr2c, hc2]
      simp
    rw [hdecomp]
    rw [pySplit_append ['\n'] (tok ++ '/' :: r1) r2' (by simp) (by simpa using hC)]
    rfl

theorem pipelineRating (ws ds rest : Str)
    (hws : ∀ c ∈ ws, pyIsSpace c = true ∧ ¬ c = '\n')
    (hds : ds ≠ []) (hdig : ∀ c ∈ ds, c.isDigit = true) :
    pyFloat ((pySplit ['/']
        (pyStrip ((pySplit ['\n'] ((ws ++ ds) ++ '/' :: rest)).headD []))).headD [])
      = some (digitsVal ds) := by
  have hnl : '\n' ∉ ws ++ ds := by
    intro hmem
    rcases List.mem_append.mp hmem with h1 | h2
    · exact (hws '\n' h1).2 rfl
    · have := hdig '\n' h2
      simp [Char.isDigit] at this
  rw [line_of_split (ws ++ ds) rest hnl]
  have hstr := pyStrip_append_slash ws ds
    (rest.takeWhile (fun c => !(decide (c = '\n'))))
    (fun c hc => (hws c hc).1) hds hdig
  rw [hstr]
  set r1s := (((rest.takeWhile (fun c => !(decide (c = '\n')))).reverse.dropWhile
    pyIsSpace)).reverse with hr1s
  have hnoslash : containsSub ['/'] (ds ++ (['/']).dropLast) = false := by
    rw [show (['/'] : Str).dropLast = [] from rfl, List.append_nil]
    apply containsSub_singleton_false
    intro hmem
    have := hdig '/' hmem
    simp [Char.isDigit] at this
  have hform : ds ++ '/' :: r1s = ds ++ ['/'] ++ r1s := by simp
  rw [hform]
  rw [pySplit_append ['/'] ds r1s (by simp) hnoslash]
  exact pyFloat_digits ds hds hdig

theorem marker_chunk (pre tok rest : Str)
    (hpre : containsSub ("Overall Rating:").data
      (pre ++ (("Overall Rating:").data).dropLast) = false)
    (hrest : containsSub ("Overall Rating:").data (tok ++ '/' :: rest) = false) :
    (pySplit ("Overall Rating:").data
        (pre ++ ("Overall Rating:").data ++ (tok ++ '/' :: rest))).get? 1
      = some (tok ++ '/' :: rest) := by
  rw [pySplit_append ("Overall Rating:").data pre (tok ++ '/' :: rest)
    (by decide) hpre]
  rw [pySplit_no_occ (tok ++ '/' :: rest) (by decide) hrest]
  rfl

theorem guard_of_decomp (pre tok rest : Str) :
    containsSub ("Overall Rating").data
      (pre ++ ("Overall Rating:").data ++ (tok ++ '/' :: rest)) = true := by
  have hM : ("Overall Rating:").data
      = ("Overall Rating").data ++ [':'] := by decide
  rw [hM]
  have : pre ++ (("Overall Rating").data ++ [':']) ++ (tok ++ '/' :: rest)
      = pre ++ ("Overall Rating").data ++ ([':'] ++ (tok ++ '/' :: rest)) := by
    simp
  rw [this]
  exact containsSub_of_mid pre _ _

theorem rating_extraction_of_decomp (pre ws ds rest : Str)
    (hpre : containsSub ("Overall Rating:").data
      (pre ++ (("Overall Rating:").data).dropLast) = false)
    (hrest : containsSub ("Overall Rating:").data ((ws ++ ds) ++ '/' :: rest) = false)
    (hws : ∀ c ∈ ws, pyIsSpace c = true ∧ ¬ c = '\n')
    (hds : ds ≠ []) (hdig : ∀ c ∈ ds, c.isDigit = true) :
    display_feedback (pre ++ ("Overall Rating:").data ++ ((ws ++ ds) ++ '/' :: rest))
      = RenderOutcome.rendered (some (digitsVal ds))
    ∧ historyRating (pre ++ ("Overall Rating:").data ++ ((ws ++ ds) ++ '/' :: rest))
      = some (digitsVal ds) := by
  have hguard := guard_of_decomp pre (ws ++ ds) rest
  have hchunk := marker_chunk pre (ws ++ ds) rest hpre hrest
  have hpipe := pipelineRating ws ds rest hws hds hdig
  constructor
  · unfold display_feedback
    rw [hguard, if_pos rfl, hchunk]
    simp only [hpipe]
  · unfold historyRating
    rw [hguard, if_pos rfl, hchunk]
    simp only [hpipe]

theorem digitsVal_single (c : Char) : digitsVal [c] = ((c.toNat - 48 : ℕ) : ℚ) := by
  simp [digitsVal]

/-- Record with feedback that carries no parsable rating. -/
def sampleNoRating : Record :=
  { timestamp := 0, original := ("x").data,
    feedback := ("no rating here").data, model := ("gemini-1.5-flash").data }

/-- Record whose feedback carries the rating 3. -/
def sampleRating3 : Record :=
  { timestamp := 1, original := ("t3").data,
    feedback := ("Overall Rating: 3/10").data,
    model := ("gemini-1.5-flash").data }

/-- Record whose feedback carries the rating 9. -/
def sampleRating9 : Record :=
  { timestamp := 2, original := ("t9").data,
    feedback := ("Overall Rating: 9/10").data,
    model := ("gemini-1.5-flash").data }

theorem historyRating_sample3 : historyRating sampleRating3.feedback = some 3 := by
  have h : historyRating sampleRating3.feedback = some (digitsVal ['3']) := rfl
  rw [h, digitsVal_single]
  norm_num [show ('3'.toNat - 48 : ℕ) = 3 from rfl]

theorem historyRating_sample9 : historyRating sampleRating9.feedback = some 9 := by
  have h : historyRating sampleRating9.feedback = some (digitsVal ['9']) := rfl
  rw [h, digitsVal_single]
  norm_num [show ('9'.toNat - 48 : ℕ) = 9 from rfl]

theorem historyRating_sampleNone : historyRating sampleNoRating.feedback = none := by
  decide

theorem evaluate_text_ok (text m lvl resp : Str) (now : Nat) (st : AppState) :
    evaluate_text text m lvl (Except.ok resp) now st
      = ({ st with history := st.history ++
            [{ timestamp := now, original := text,
               feedback := resp, model := m }] },
         pyStrip resp, (m, buildPrompt text lvl)) := rfl

theorem evaluate_text_error (text m lvl e : Str) (now : Nat) (st : AppState) :
    evaluate_text text m lvl (Except.error e) now st
      = (st, ("⚠️ Error processing request: ").data ++ e,
         (m, buildPrompt text lvl)) := rfl

theorem batchLoop_spec (oracle : Nat → Except Str Str) (clock : Nat → Nat)
    (m : Str) :
    ∀ (l : List Str) (i : Nat) (st : AppState) (res : List (Str × Str))
      (cs : List Call),
    dictGet MODEL_OPTIONS st.selected_model = some m →
    batchLoop oracle clock l i st res cs
      = some ({ st with history := st.history ++ batchRecs m oracle clock l i },
              res ++ batchResults oracle l i, cs ++ batchCalls m l) := by
  intro l
  induction l with
  | nil =>
    intro i st res cs _
    simp [batchLoop, batchRecs, batchResults, batchCalls]
  | cons s restS ih =>
    intro i st res cs hm
    show (match dictGet MODEL_OPTIONS st.selected_model with
      | none => none
      | some m' =>
        let r := evaluate_text s m' ("Concise").data (oracle i) (clock i) st
        batchLoop oracle clock restS (i + 1) r.1
          (res ++ [(s, r.2.1)]) (cs ++ [r.2.2])) = _
    rw [hm]
    cases ho : oracle i with
    | ok resp =>
      simp only [evaluate_text_ok]
      rw [ih (i + 1)
        { st with history := st.history ++ [Record.mk (clock i) s resp m] }
        (res ++ [(s, pyStrip resp)])
        (cs ++ [(m, buildPrompt s ("Concise").data)]) hm]
      simp [batchRecs, batchResults, batchCalls, feedbackOf, ho]
    | error e =>
      simp only [evaluate_text_error]
      rw [ih (i + 1) st
        (res ++ [(s, ("⚠️ Error processing request: ").data ++ e)])
        (cs ++ [(m, buildPrompt s ("Concise").data)]) hm]
      simp [batchRecs, batchResults, batchCalls, feedbackOf, ho]

theorem batchLoop_history (oracle : Nat → Except Str Str) (clock : Nat → Nat) :
    ∀ (l : List Str) (i : Nat) (st : AppState) (res : List (Str × Str))
      (cs : List Call) (r : AppState × List (Str × Str) × List Call),
    batchLoop oracle clock l i st res cs = some r →
    ∃ tail, r.1.history = st.history ++ tail := by
  intro l
  induction l with
  | nil =>
    intro i st res cs r h
    simp [batchLoop] at h
    subst h
    exact ⟨[], by simp⟩
  | cons s restS ih =>
    intro i st res cs r h
    rw [show batchLoop oracle clock (s :: restS) i st res cs
      = (match dictGet MODEL_OPTIONS st.selected_model with
        | none => none
        | some m' =>
          let rr := evaluate_text s m' ("Concise").data (oracle i) (clock i) st
          batchLoop oracle clock restS (i + 1) rr.1
            (res ++ [(s, rr.2.1)]) (cs ++ [rr.2.2])) from rfl] at h
    cases hm : dictGet MODEL_OPTIONS st.selected_model with
    | none => rw [hm] at h; exact absurd h (by simp)
    | some m =>
      rw [hm] at h
      obtain ⟨tail, htail⟩ := ih (i + 1) _ _ _ r h
      cases ho : oracle i with
      | ok resp =>
        rw [ho, evaluate_text_ok] at htail
        refine ⟨Record.mk (clock i) s resp m :: tail, ?_⟩
        rw [htail]
        simp
      | error e =>
        rw [ho, evaluate_text_error] at htail
        exact ⟨tail, htail⟩

theorem ratingColor_band (r : ℚ) :
    (ratingColor r = ("red").data ↔ r < 4)
    ∧ (ratingColor r = ("orange").data ↔ 4 ≤ r ∧ r < 7)
    ∧ (ratingColor r = ("green").data ↔ 7 ≤ r) := by
  have hor : ¬ ("orange").data = ("red").data := by decide
  have hgr : ¬ ("green").data = ("red").data := by decide
  have hro : ¬ ("red").data = ("orange").data := by decide
  have hgo : ¬ ("green").data = ("orange").data := by decide
  have hrg : ¬ ("red").data = ("green").data := by decide
  have hog : ¬ ("orange").data = ("green").data := by decide
  refine ⟨?_, ?_, ?_⟩
  · unfold ratingColor
    by_cases h4 : r < 4
    · simp [h4]
    · by_cases h7 : r < 7
      · simp [h4, h7, hor]
      · simp [h4, h7, hgr]
  · unfold ratingColor
    by_cases h4 : r < 4
    · have hn : ¬ (4 ≤ r ∧ r < 7) := fun hc => absurd h4 (not_lt.mpr hc.1)
      simp [h4, hro, hn]
    · by_cases h7 : r < 7
      · have hy : 4 ≤ r ∧ r < 7 := ⟨not_lt.mp h4, h7⟩
        simp [h4, h7, hy]
      · have hn : ¬ (4 ≤ r ∧ r < 7) := fun hc => absurd hc.2 h7
        simp [h4, h7, hgo, hn]
  · unfold ratingColor
    by_cases h4 : r < 4
    · have hn : ¬ (7 ≤ r) := by linarith
      simp [h4, hrg, hn]
    · by_cases h7 : r < 7
      · have hn : ¬ (7 ≤ r) := not_le.mpr h7
        simp [h4, h7, hog, hn]
      · simp [h4, h7, not_lt.mp h7]

/-- C1: the spec asserts that on a failed external call `evaluate_text`
still appends a history record holding the input text and the error
placeholder.  The code does not: the `history.append` of src/main.py
lines 75-80 sits inside the `try`, after the external call of line 72,
so an exception jumps straight to the handler on lines 83-84 and no
record is ever appended.  Here a failed evaluation leaves the state
completely unchanged while the placeholder demanded by the claim is
only returned, not recorded. -/
theorem C1_counterexample :
    (evaluate_text ("hello").data ("gemini-1.5-flash").data ("Detailed").data
        (Except.error ("boom").data) 0 sampleState).1 = sampleState
    ∧ (evaluate_text ("hello").data ("gemini-1.5-flash").data ("Detailed").data
        (Except.error ("boom").data) 0 sampleState).2.1
      = ("⚠️ Error processing request: boom").data
    ∧ sampleState.history = [] :=
  ⟨rfl, by decide, rfl⟩

/-- C1 (amended): on a failed external call `evaluate_text` returns the
placeholder error string but appends nothing to the session history: the
state is returned unchanged, so history records successful invocations
only. -/
theorem C1_no_record_on_failure (text m lvl e : Str) (now : Nat) (st : AppState) :
    (evaluate_text text m lvl (Except.error e) now st).1 = st
    ∧ (evaluate_text text m lvl (Except.error e) now st).2.1
      = ("⚠️ Error processing request: ").data ++ e :=
  ⟨rfl, rfl⟩

/-- C2: the claim says a feedback string without the rating marker, or
with a failing extraction step, renders gracefully with no error.  The
code's guard (src/main.py line 87) checks for the substring
`"Overall Rating"` while line 88 splits on `"Overall Rating:"` and
indexes `[1]` outside the `try`: feedback containing the former but not
the latter (here `"Overall Rating 7/10"`, no colon) raises an uncaught
IndexError in `display_feedback`, against the spec's graceful-degradation
intent.  The metrics loop (lines 289-295) keeps the same index inside
its `try`, so the record is still excluded from aggregates without an
error there. -/
theorem C2_render_raises :
    display_feedback ("Overall Rating 7/10").data = RenderOutcome.indexError
    ∧ historyRating ("Overall Rating 7/10").data = none
    ∧ display_feedback ("no marker at all").data = RenderOutcome.rendered none
    ∧ display_feedback ("Overall Rating: x/10").data = RenderOutcome.rendered none := by
  refine ⟨by decide, by decide, by decide, by decide⟩

/-- C3: for every feedback string that decomposes as an arbitrary
marker-free prefix, the literal marker `"Overall Rating:"`, optional
same-line whitespace, a non-empty digit token, a `"/"` and an arbitrary
remainder, `display_feedback` extracts exactly the token's numeric value
(first marker occurrence, cut at the next line break, cut at the next
`"/"`, parsed as a float), and the colour band of line 95 is red (low)
exactly below 4, orange (mid) exactly on [4,7) and green (high) exactly
from 7 up. -/
theorem C3_rating_extraction (pre ws ds rest : Str)
    (hpre : containsSub ("Overall Rating:").data
      (pre ++ (("Overall Rating:").data).dropLast) = false)
    (hrest : containsSub ("Overall Rating:").data ((ws ++ ds) ++ '/' :: rest) = false)
    (hws : ∀ c ∈ ws, pyIsSpace c = true ∧ ¬ c = '\n')
    (hds : ds ≠ []) (hdig : ∀ c ∈ ds, c.isDigit = true) :
    display_feedback (pre ++ ("Overall Rating:").data ++ ((ws ++ ds) ++ '/' :: rest))
      = RenderOutcome.rendered (some (digitsVal ds))
    ∧ ∀ r : ℚ, (ratingColor r = ("red").data ↔ r < 4)
        ∧ (ratingColor r = ("orange").data ↔ 4 ≤ r ∧ r < 7)
        ∧ (ratingColor r = ("green").data ↔ 7 ≤ r) :=
  ⟨(rating_extraction_of_decomp pre ws ds rest hpre hrest hws hds hdig).1,
   fun r => ratingColor_band r⟩

/-- C3 witness: the spec's example `"Overall Rating: 7/10"` extracts
7.0, and 7 falls in the green (high) band, on the documented inclusive
side of the boundary. -/
theorem C3_witness :
    display_feedback ("Overall Rating: 7/10").data
      = RenderOutcome.rendered (some (digitsVal ['7']))
    ∧ digitsVal ['7'] = 7
    ∧ (ratingColor 7 = ("green").data ↔ 7 ≤ (7 : ℚ)) := by
  have h := C3_rating_extraction [] [' '] ['7'] ("10").data
    (by decide) (by decide) (by decide) (by decide) (by decide)
  refine ⟨h.1, ?_, (h.2 7).2.2⟩
  rw [digitsVal_single]
  norm_num [show ('7'.toNat - 48 : ℕ) = 7 from rfl]

/-- C4: the claim says a non-blank input always produces exactly one new
history record.  It does not when the external call fails: the input
`"hello"` is non-blank, yet with a failing call the handler produces a
state whose history is still empty — zero records, not one (the append
sits inside the `try` after the external call, see C1). -/
theorem C4_counterexample :
    (analyze_button ("hello").data (Except.error ("boom").data) 0 sampleState).map
      (fun r => r.1.history.length) = some 0
    ∧ (pyStrip ("hello").data).isEmpty = false :=
  ⟨by decide, by decide⟩

/-- C4 (amended): a non-blank input whose external call succeeds appends
exactly one record whose `original` is the untrimmed input and whose
timestamp is the current clock reading, hence non-decreasing against any
history whose timestamps do not exceed the clock; a blank input makes no
external call, appends nothing and shows a warning.  (On a failed
external call no record is appended, see C1.) -/
theorem C4_one_record_iff :
    (∀ (text resp : Str) (now : Nat) (st : AppState) (m : Str),
      (pyStrip text).isEmpty = false →
      dictGet MODEL_OPTIONS st.selected_model = some m →
      analyze_button text (Except.ok resp) now st
        = some ({ st with
            history := st.history ++ [Record.mk now text resp m],
            last_feedback := some (pyStrip resp),
            last_text := some text },
          [(m, buildPrompt text st.feedback_level)], false)
      ∧ ((∀ rec ∈ st.history, rec.timestamp ≤ now) →
          ∀ rec ∈ st.history ++ [Record.mk now text resp m],
            rec.timestamp ≤ (Record.mk now text resp m).timestamp))
    ∧ (∀ (text : Str) (g : Except Str Str) (now : Nat) (st : AppState),
      (pyStrip text).isEmpty = true →
      analyze_button text g now st = some (st, [], true)) := by
  constructor
  · intro text resp now st m hnb hm
    constructor
    · unfold analyze_button
      rw [if_neg (by simp [hnb]), hm]
      simp only [evaluate_text_ok]
    · intro hts rec hrec
      rcases List.mem_append.mp hrec with h1 | h2
      · exact hts rec h1
      · rcases List.mem_cons.mp h2 with rfl | h3
        · exact le_refl _
        · exact absurd h3 (List.not_mem_nil rec)
  · intro text g now st hb
    unfold analyze_button
    rw [if_pos hb]

/-- C4 witness: on the state produced by the sidebar, evaluating the
non-blank input `"hi"` with a successful response appends exactly the
one expected record, and the whitespace-only input `"   "` only warns. -/
theorem C4_witness :
    analyze_button ("hi").data (Except.ok ("resp").data) 5 sampleState
      = some ({ sampleState with
          history := [Record.mk 5 ("hi").data ("resp").data ("gemini-1.5-flash").data],
          last_feedback := some (pyStrip ("resp").data),
          last_text := some ("hi").data },
        [(("gemini-1.5-flash").data, buildPrompt ("hi").data sampleState.feedback_level)],
        false)
    ∧ analyze_button ("   ").data (Except.ok ("resp").data) 5 sampleState
      = some (sampleState, [], true) := by
  have h := C4_one_record_iff
  exact ⟨(h.1 ("hi").data ("resp").data 5 sampleState ("gemini-1.5-flash").data
    (by decide) (by decide)).1,
    h.2 ("   ").data (Except.ok ("resp").data) 5 sampleState (by decide)⟩

/-- C5: the claim says count, mean and maximum are all computed over
exactly the records with a parsable rating.  Mean and maximum are, but
the count shown as "Total Evaluations" is `len(st.session_state.history)`
(src/main.py line 300): for one unparsable record mixed with ratings 3
and 9, the metrics triple is `(3, 6, 9)` although only 2 records carry a
rating — the count is not computed over the parsed subset. -/
theorem C5_counterexample :
    performance_metrics [sampleNoRating, sampleRating3, sampleRating9]
      = some (3, 6, 9)
    ∧ (ratingsOf [sampleNoRating, sampleRating3, sampleRating9]).length = 2
    ∧ (performance_metrics [sampleNoRating, sampleRating3, sampleRating9]).map
        (fun p => p.1)
      ≠ some (ratingsOf [sampleNoRating, sampleRating3, sampleRating9]).length := by
  have hr : ratingsOf [sampleNoRating, sampleRating3, sampleRating9] = [3, 9] := by
    simp [ratingsOf, historyRating_sampleNone, historyRating_sample3,
      historyRating_sample9]
  have hm : performance_metrics [sampleNoRating, sampleRating3, sampleRating9]
      = some (3, 6, 9) := by
    unfold performance_metrics
    rw [if_neg (by simp), hr]
    have hsum : ([3, 9] : List ℚ).foldl (· + ·) 0 / (([3, 9] : List ℚ).length : ℚ)
        = 6 := by
      simp [List.foldl]
      norm_num
    have hmax : ([9] : List ℚ).foldl max 3 = 9 := by
      simp [List.foldl]
      norm_num
    simp only [hsum, hmax]
    rfl
  refine ⟨hm, by rw [hr]; rfl, ?_⟩
  rw [hm, hr]
  simp

/-- C5 (amended): the mean and maximum are computed over exactly the
records with a parsable rating — any number of unparsable records
interleaved anywhere leaves the ratings list `[3, 9]`, the mean 6 and
the maximum 9 — while the count shown ("Total Evaluations") is the
length of the whole history, unparsable records included. -/
theorem C5_aggregates (a b c : List Record)
    (ha : ∀ r ∈ a, historyRating r.feedback = none)
    (hb : ∀ r ∈ b, historyRating r.feedback = none)
    (hc : ∀ r ∈ c, historyRating r.feedback = none) :
    ratingsOf (a ++ sampleRating3 :: b ++ sampleRating9 :: c) = [3, 9]
    ∧ performance_metrics (a ++ sampleRating3 :: b ++ sampleRating9 :: c)
      = some (a.length + b.length + c.length + 2, 6, 9) := by
  have hfa : a.filterMap (fun r => historyRating r.feedback) = [] :=
    List.filterMap_eq_nil_iff.mpr ha
  have hfb : b.filterMap (fun r => historyRating r.feedback) = [] :=
    List.filterMap_eq_nil_iff.mpr hb
  have hfc : c.filterMap (fun r => historyRating r.feedback) = [] :=
    List.filterMap_eq_nil_iff.mpr hc
  have hr : ratingsOf (a ++ sampleRating3 :: b ++ sampleRating9 :: c) = [3, 9] := by
    unfold ratingsOf
    simp only [List.filterMap_append, List.filterMap_cons,
      historyRating_sample3, historyRating_sample9, hfa, hfb, hfc]
    rfl
  refine ⟨hr, ?_⟩
  unfold performance_metrics
  rw [if_neg (by simp), hr]
  have hsum : ([3, 9] : List ℚ).foldl (· + ·) 0 / (([3, 9] : List ℚ).length : ℚ)
      = 6 := by
    simp [List.foldl]
    norm_num
  have hmax : ([9] : List ℚ).foldl max 3 = 9 := by
    simp [List.foldl]
    norm_num
  simp only [hsum, hmax]
  have hlen : (a ++ sampleRating3 :: b ++ sampleRating9 :: c).length
      = a.length + b.length + c.length + 2 := by
    simp [List.length_append]
    omega
  rw [hlen]

/-- C5 witness: one unparsable record in front of the two rated ones:
ratings `[3, 9]`, metrics `(3, 6, 9)`. -/
theorem C5_witness :
    ratingsOf ([sampleNoRating] ++ sampleRating3 :: [] ++ sampleRating9 :: [])
      = [3, 9]
    ∧ performance_metrics
        ([sampleNoRating] ++ sampleRating3 :: [] ++ sampleRating9 :: [])
      = some ([sampleNoRating].length + ([] : List Record).length
          + ([] : List Record).length + 2, 6, 9) := by
  have h := C5_aggregates [sampleNoRating] [] []
    (by intro r hr; rw [List.mem_singleton.mp hr]; exact historyRating_sampleNone)
    (by intro r hr; exact absurd hr (List.not_mem_nil r))
    (by intro r hr; exact absurd hr (List.not_mem_nil r))
  exact h

/-- C6: a non-blank batch input is split on line breaks, blank lines are
dropped after trimming (the example `"a\n\nb\n  \nc"` yields exactly
`["a", "b", "c"]`), and every remaining trimmed line is evaluated
sequentially in order through `evaluate_text`: the appended records
(`batchRecs`), the `(sentence, feedback)` rows (`batchResults`) and the
external calls (`batchCalls`) follow the sentence list index by index,
and every call's prompt embeds the literal `"Concise"` verbosity — none
of the outputs depends on `st.feedback_level`, as the final conjunct
makes explicit.  No rating extraction appears in the result rows. -/
theorem C6_batch (txt : Str) (oracle : Nat → Except Str Str)
    (clock : Nat → Nat) (st : AppState) (m : Str)
    (hnb : (pyStrip txt).isEmpty = false)
    (hm : dictGet MODEL_OPTIONS st.selected_model = some m) :
    batch_analyze txt oracle clock st
      = some ({ st with history := st.history
            ++ batchRecs m oracle clock (batchSentences txt) 0 },
          batchResults oracle (batchSentences txt) 0,
          batchCalls m (batchSentences txt), false)
    ∧ batchSentences ("a\n\nb\n  \nc").data
      = [("a").data, ("b").data, ("c").data]
    ∧ ∀ lvl : Str,
        batch_analyze txt oracle clock { st with feedback_level := lvl }
        = some ({ st with feedback_level := lvl, history := st.history ++ batchRecs m oracle clock (batchSentences txt) 0 },
            batchResults oracle (batchSentences txt) 0,
            batchCalls m (batchSentences txt), false) := by
  refine ⟨?_, by decide, ?_⟩
  · unfold batch_analyze
    rw [if_neg (by simp [hnb])]
    rw [batchLoop_spec oracle clock m (batchSentences txt) 0 st [] [] hm]
    simp
  · intro lvl
    unfold batch_analyze
    rw [if_neg (by simp [hnb])]
    rw [batchLoop_spec oracle clock m (batchSentences txt) 0
      { st with feedback_level := lvl } [] [] hm]
    simp

/-- C6 witness: the example batch input evaluated on the sidebar state
with an error oracle; the conclusion is instantiated at the concrete
input, including the verbosity-independence conjunct at
`"Comprehensive"`. -/
theorem C6_witness :
    batch_analyze (("a\n\nb\n  \nc").data) (fun _ => Except.error ("e").data)
        (fun i => i) sampleState
      = some ({ sampleState with history := sampleState.history ++ batchRecs (("gemini-1.5-flash").data) (fun _ => Except.error ("e").data) (fun i => i) (batchSentences (("a\n\nb\n  \nc").data)) 0 },
          batchResults (fun _ => Except.error ("e").data)
            (batchSentences (("a\n\nb\n  \nc").data)) 0,
          batchCalls (("gemini-1.5-flash").data)
            (batchSentences (("a\n\nb\n  \nc").data)), false)
    ∧ batchSentences ("a\n\nb\n  \nc").data
      = [("a").data, ("b").data, ("c").data]
    ∧ batch_analyze (("a\n\nb\n  \nc").data) (fun _ => Except.error ("e").data)
        (fun i => i) { sampleState with feedback_level := ("Comprehensive").data }
      = some ({ sampleState with feedback_level := ("Comprehensive").data, history := sampleState.history ++ batchRecs (("gemini-1.5-flash").data) (fun _ => Except.error ("e").data) (fun i => i) (batchSentences (("a\n\nb\n  \nc").data)) 0 },
          batchResults (fun _ => Except.error ("e").data)
            (batchSentences (("a\n\nb\n  \nc").data)) 0,
          batchCalls (("gemini-1.5-flash").data)
            (batchSentences (("a\n\nb\n  \nc").data)), false) := by
  have h := C6_batch (("a\n\nb\n  \nc").data) (fun _ => Except.error ("e").data)
    (fun i => i) sampleState (("gemini-1.5-flash").data) (by decide) (by decide)
  exact ⟨h.1, h.2.1, h.2.2 (("Comprehensive").data)⟩

/-- C7: any exception from the external call is caught at the call site
and converted into the placeholder `"⚠️ Error processing request: <cause>"`,
in both src/main.py `evaluate_text` (lines 83-84) and src/code.py
`evaluate_text` (lines 57-58); both functions are total in the model, so
nothing propagates past their boundary, and the Analyze Text handler
stores the returned string in `last_feedback`, the slot the results
panel renders — the error text surfaces exactly where feedback would
have appeared. -/
theorem C7_error_placeholder :
    (∀ (text m lvl e : Str) (now : Nat) (st : AppState),
      (evaluate_text text m lvl (Except.error e) now st).2.1
        = ("⚠️ Error processing request: ").data ++ e)
    ∧ (∀ text e : Str,
      (code_evaluate_text text (Except.error e)).1
        = ("⚠️ Error processing request: ").data ++ e)
    ∧ (∀ (text : Str) (g : Except Str Str) (now : Nat) (st : AppState) (m : Str),
      (pyStrip text).isEmpty = false →
      dictGet MODEL_OPTIONS st.selected_model = some m →
      (analyze_button text g now st).map (fun r => r.1.last_feedback)
        = some (some ((evaluate_text text m st.feedback_level g now st).2.1))) := by
  refine ⟨fun _ _ _ _ _ _ => rfl, fun _ _ => rfl, ?_⟩
  intro text g now st m hnb hm
  unfold analyze_button
  rw [if_neg (by simp [hnb]), hm]
  rfl

/-- C7 witness: a failing call with cause `"quota"` yields exactly the
placeholder in both variants, and the handler surfaces it in
`last_feedback`. -/
theorem C7_witness :
    (evaluate_text ("hi").data ("gemini-1.5-flash").data ("Detailed").data
        (Except.error ("quota").data) 0 sampleState).2.1
      = ("⚠️ Error processing request: ").data ++ ("quota").data
    ∧ (code_evaluate_text ("hi").data (Except.error ("quota").data)).1
      = ("⚠️ Error processing request: ").data ++ ("quota").data
    ∧ (analyze_button ("hi").data (Except.error ("quota").data) 0 sampleState).map
        (fun r => r.1.last_feedback)
      = some (some ((evaluate_text ("hi").data ("gemini-1.5-flash").data
          sampleState.feedback_level (Except.error ("quota").data) 0
          sampleState).2.1)) := by
  have h := C7_error_placeholder
  exact ⟨h.1 ("hi").data ("gemini-1.5-flash").data ("Detailed").data
      ("quota").data 0 sampleState,
    h.2.1 ("hi").data ("quota").data,
    h.2.2 ("hi").data (Except.error ("quota").data) 0 sampleState
      ("gemini-1.5-flash").data (by decide) (by decide)⟩

/-- C8: the Clear History button empties the history; on an empty
history the metrics section is skipped entirely (the tab3 guard of
src/main.py line 282), and on a history with no parsable rating the
`if ratings:` guard of line 297 reports no data — in every case the
average `sum(ratings)/len(ratings)` is only ever computed with a
non-empty ratings list, so its denominator is non-zero. -/
theorem C8_clear_and_no_div :
    (∀ st : AppState, (clear_history st).history = [])
    ∧ performance_metrics [] = none
    ∧ (∀ hist : List Record, ratingsOf hist = [] → performance_metrics hist = none)
    ∧ (∀ (hist : List Record) (t : Nat) (avg mx : ℚ),
        performance_metrics hist = some (t, avg, mx) →
        (ratingsOf hist).length ≠ 0
        ∧ avg = (ratingsOf hist).foldl (· + ·) 0 / ((ratingsOf hist).length : ℚ)) := by
  refine ⟨fun _ => rfl, rfl, ?_, ?_⟩
  · intro hist h
    unfold performance_metrics
    cases hist with
    | nil => rfl
    | cons x hist' =>
      rw [if_neg (by simp)]
      rw [h]
  · intro hist t avg mx h
    unfold performance_metrics at h
    cases hist with
    | nil => simp at h
    | cons x hist' =>
      rw [if_neg (by simp)] at h
      cases hr : ratingsOf (x :: hist') with
      | nil => rw [hr] at h; simp at h
      | cons r rs =>
        rw [hr] at h
        simp only [Option.some_inj, Prod.mk.injEq] at h
        constructor
        · simp
        · exact h.2.1.symm

/-- C8 witness: clearing the sidebar state empties the history, the
empty history reports no data, and so does the singleton history whose
only feedback has no parsable rating. -/
theorem C8_witness :
    (clear_history sampleState).history = []
    ∧ performance_metrics [] = none
    ∧ performance_metrics [sampleNoRating] = none := by
  have h := C8_clear_and_no_div
  exact ⟨h.1 sampleState, h.2.1, h.2.2.1 [sampleNoRating] (by decide)⟩

/-- C9: every operation of the program leaves the session history either
emptied (Clear History) or extended at the end: the prior records are a
prefix of the new history, unmodified, unreordered and undeleted; and a
single `evaluate_text` call appends at most one record. -/
theorem C9_append_only (a : UserAction) (st st' : AppState)
    (h : step a st = some st') :
    (st'.history = [] ∨ ∃ tail, st'.history = st.history ++ tail)
    ∧ ∀ (text m lvl : Str) (g : Except Str Str) (now : Nat) (s : AppState),
      (evaluate_text text m lvl g now s).1.history = s.history
      ∨ ∃ rec, (evaluate_text text m lvl g now s).1.history
          = s.history ++ [rec] := by
  constructor
  · cases a with
    | analyze t g now =>
      have h2 : (analyze_button t g now st).map (fun r => r.1) = some st' := h
      unfold analyze_button at h2
      clear h
      have h := h2
      by_cases hb : (pyStrip t).isEmpty
      · rw [if_pos hb] at h
        simp at h
        right
        exact ⟨[], by rw [← h]; simp⟩
      · rw [if_neg hb] at h
        cases hm : dictGet MODEL_OPTIONS st.selected_model with
        | none => rw [hm] at h; simp at h
        | some m =>
          rw [hm] at h
          cases g with
          | ok resp =>
            simp only [evaluate_text_ok, Option.map_some'] at h
            right
            refine ⟨[Record.mk now t resp m], ?_⟩
            rw [(Option.some_inj.mp h).symm]
          | error e =>
            simp only [evaluate_text_error, Option.map_some'] at h
            right
            refine ⟨[], ?_⟩
            rw [(Option.some_inj.mp h).symm]
            simp
    | batch t o c =>
      have h2 : (batch_analyze t o c st).map (fun r => r.1) = some st' := h
      unfold batch_analyze at h2
      clear h
      have h := h2
      by_cases hb : (pyStrip t).isEmpty
      · rw [if_pos hb] at h
        simp at h
        right
        exact ⟨[], by rw [← h]; simp⟩
      · rw [if_neg hb] at h
        cases hL : batchLoop o c (batchSentences t) 0 st [] [] with
        | none => rw [hL] at h; simp at h
        | some r =>
          rw [hL] at h
          simp only [Option.map_map, Option.map_some'] at h
          obtain ⟨tail, htail⟩ := batchLoop_history o c (batchSentences t) 0 st [] [] r hL
          right
          refine ⟨tail, ?_⟩
          rw [(Option.some_inj.mp h).symm]
          exact htail
    | clearHist =>
      left
      have h2 : some (clear_history st) = some st' := h
      rw [← Option.some_inj.mp h2]
      rfl
    | render =>
      right
      have h2 : some st = some st' := h
      exact ⟨[], by rw [← Option.some_inj.mp h2]; simp⟩
  · intro text m lvl g now s
    cases g with
    | ok resp => exact Or.inr ⟨Record.mk now text resp m, rfl⟩
    | error e => exact Or.inl rfl

/-- C9 witness: the Clear History action on the sidebar state, and one
failed single evaluation, both conform to the append-or-clear shape. -/
theorem C9_witness :
    ((clear_history sampleState).history = []
      ∨ ∃ tail, (clear_history sampleState).history
          = sampleState.history ++ tail)
    ∧ ((evaluate_text ("t").data ("m").data ("l").data
          (Except.error ("e").data) 0 sampleState).1.history
        = sampleState.history
      ∨ ∃ rec, (evaluate_text ("t").data ("m").data ("l").data
          (Except.error ("e").data) 0 sampleState).1.history
        = sampleState.history ++ [rec]) := by
  have h := C9_append_only UserAction.clearHist sampleState
    (clear_history sampleState) rfl
  exact ⟨h.1, h.2 ("t").data ("m").data ("l").data
    (Except.error ("e").data) 0 sampleState⟩

/-- C10: on a successful call the appended record stores the raw
response text unchanged while the caller receives (and the UI displays)
the whitespace-stripped text; the metrics loop therefore parses the
stored raw text (the record's `feedback` field is the raw response), and
raw and displayed text genuinely differ whenever the response carries
surrounding whitespace, as `" ok "` shows. -/
theorem C10_raw_stored_trimmed_returned (text m lvl resp : Str) (now : Nat)
    (st : AppState) :
    (evaluate_text text m lvl (Except.ok resp) now st).1.history
      = st.history ++ [Record.mk now text resp m]
    ∧ (evaluate_text text m lvl (Except.ok resp) now st).2.1 = pyStrip resp
    ∧ (Record.mk now text resp m).feedback = resp
    ∧ ratingsOf (st.history ++ [Record.mk now text resp m])
      = ratingsOf st.history ++ ratingsOf [Record.mk now text resp m]
    ∧ pyStrip ((" ok ").data) ≠ (" ok ").data :=
  ⟨rfl, rfl, rfl, List.filterMap_append _ _ _, by decide⟩
